import Mathlib

/-
Formal model of the works service of the design-refresh backend
(api/src/services/works.ts, current variant) together with the data model
(data/core/Work.ts) and the key-value index layer it drives.

The key-value store is modelled structurally: one association list per index
family (by-ID, by-artist, by-week, and the unfiltered list), and every write
is recorded in an explicit write log so that statements about which keys are
written (and how often) can be proved.

External collaborators (the Joi schema validator, the Discord announcement
service, the thumbnail pipeline, URL parsing, Date parsing, and the short-ID
allocator) are passed in as function parameters, mirroring the narrow
contracts the service calls them through.
-/

namespace Refresh

/-- A single content item of a work (data/core/Work.ts, `UrlItem`). -/
structure UrlItem where
  url : String
  meta : Option String := none
  smallThumbnail : Option String := none
  hiDpiThumbnail : Option String := none
deriving DecidableEq, Repr

/-- Modelled from the spec: the Artist entity is externally maintained; the
works service only carries it opaquely inside `firstSeenArtistInfo`.  The
spec lists display name, thumbnail, socials and an aggregate works count. -/
structure ArtistRec where
  name : String := ""
  thumbnail : Option String := none
  socials : List String := []
  worksCount : Nat := 0
deriving DecidableEq, Repr

/-- A work (data/core/Work.ts).  `isSoftDeleted` is absent from the TS
interface but is read and written dynamically by the service; JS coerces the
missing field to a falsy value, which we model as the default `false`. -/
structure Work where
  id : String := ""
  year : Nat := 0
  weekNumbers : List Nat := []
  artistId : String := ""
  firstSeenArtistInfo : Option ArtistRec := none
  title : String := ""
  medium : Option String := none
  description : String := ""
  items : List UrlItem := []
  smallThumbnailUrl : Option String := none
  thumbnailUrl : Option String := none
  isApproved : Bool := false
  isSoftDeleted : Bool := false
  discordId : Option String := none
  submittedTimestamp : String := ""
deriving DecidableEq, Repr

/-- Lookup in an association list (models reading a keyed store entry or a
JS object property). -/
def alookup {α β : Type} [DecidableEq α] (k : α) : List (α × β) → Option β
  | [] => none
  | (k₀, v₀) :: rest => if k₀ = k then some v₀ else alookup k rest

/-- Insert-or-replace in an association list, keeping the position of an
existing key and appending a new key (JS object property update order). -/
def aupsert {α β : Type} [DecidableEq α] (k : α) (v : β) : List (α × β) → List (α × β)
  | [] => [(k, v)]
  | (k₀, v₀) :: rest => if k₀ = k then (k, v) :: rest else (k₀, v₀) :: aupsert k v rest

/-- Insert-or-replace a work in the unfiltered list, keyed by its `id`. -/
def listUpsert (w : Work) : List Work → List Work
  | [] => [w]
  | w₀ :: rest => if w₀.id = w.id then w :: rest else w₀ :: listUpsert w rest

/-- Keys of the four index families of the store (constants/kv.ts). -/
inductive StoreKey where
  | byId (id : String)
  | byArtist (artistId : String)
  | byWeek (year week : String)
  | listKey
deriving DecidableEq, Repr

/-- The backing key-value store, split by index family:
`WORKS_WITH_ID_INDEX/<id>`, `WORKS_WITH_ARTIST_INDEX/<artistId>`,
`WORKS_WITH_WEEK_INDEX/<year>/<week>`, and `WORKS_WITHOUT_INDEX`. -/
structure Store where
  byId : List (String × Work) := []
  byArtist : List (String × List (String × Work)) := []
  byWeek : List ((String × String) × List (String × Work)) := []
  worksList : List Work := []
deriving DecidableEq, Repr

/-- JS truthiness of a string. -/
def truthyStr (s : String) : Bool := !s.isEmpty

/-- JS truthiness of a `string | null | undefined` value. -/
def truthyOpt (o : Option String) : Bool :=
  match o with
  | none => false
  | some s => !s.isEmpty

/-- Modelled from the spec: `sanitize` (utils/io.ts, source not in the
repository snapshot) escapes search terms by removing slashes, per its
call-site comment "Escape search terms (remove slashes)"; it preserves
null. -/
def sanitize (o : Option String) : Option String :=
  o.map (fun s => String.mk (s.toList.filter (fun c => c != '/')))

/-- Character-list prefix test used by the substring test below. -/
def isPrefB : List Char → List Char → Bool
  | [], _ => true
  | _ :: _, [] => false
  | c :: cs, d :: ds => c = d && isPrefB cs ds

/-- Contiguous substring test on character lists. -/
def hasSubChars (pat : List Char) : List Char → Bool
  | [] => pat.isEmpty
  | c :: rest => isPrefB pat (c :: rest) || hasSubChars pat rest

/-- Model of JS `String.prototype.includes`. -/
def containsSub (s pat : String) : Bool := hasSubChars pat.toList s.toList

/-- Modelled from the spec: `placeWork` (utils/kv.ts, source not in the
repository snapshot), the Index Maintainer.  Contract per the spec:
`placeWork(store, work, isNewPost, updateIdIndex=true,
updateArtistAndWeekIndices=true, updateListIndex=true)`.  It rewrites, as
full overwrites and in this order: the by-ID singleton entry, the by-artist
map slot, one by-week map slot per entry of `weekNumbers`, and the work's
slot of the unfiltered list — each gated by its flag.  `isNewPost` only
affects downstream aggregate counters, which are outside the four index
writes and outside this model.  The returned list is the write log. -/
def placeWork (store : Store) (work : Work) (isNewPost : Bool)
    (updateIdIndex : Bool := true) (updateArtistAndWeekIndices : Bool := true)
    (updateListIndex : Bool := true) : Store × List StoreKey :=
  let _ := isNewPost
  let (s1, l1) :=
    if updateIdIndex then
      ({store with byId := aupsert work.id work store.byId}, [StoreKey.byId work.id])
    else (store, [])
  let (s2, l2) :=
    if updateArtistAndWeekIndices then
      let artistMap := (alookup work.artistId s1.byArtist).getD []
      let sA := {s1 with
        byArtist := aupsert work.artistId (aupsert work.id work artistMap) s1.byArtist}
      let step := fun (acc : Store × List StoreKey) (wk : Nat) =>
        let key : String × String := (Nat.repr work.year, Nat.repr wk)
        let weekMap := (alookup key acc.1.byWeek).getD []
        ({acc.1 with byWeek := aupsert key (aupsert work.id work weekMap) acc.1.byWeek},
         acc.2 ++ [StoreKey.byWeek key.1 key.2])
      let (sW, lW) := work.weekNumbers.foldl step (sA, [])
      (sW, StoreKey.byArtist work.artistId :: lW)
    else (s1, [])
  let (s3, l3) :=
    if updateListIndex then
      ({s2 with worksList := listUpsert work s2.worksList}, [StoreKey.listKey])
    else (s2, [])
  (s3, l1 ++ l2 ++ l3)

/-- Result of `GET /works/:id` (works.ts, `getWork`): 404-equivalent or the
stored work serialized as `{[work.id]: work}`. -/
inductive GetOneResult where
  | notFound
  | found (id : String) (w : Work)
deriving DecidableEq, Repr

/-- Handler for `GET /works/:id` (works.ts, `getWork`).  The second
component records which store keys were read.  A missing entry parses as the
empty JS object (`|| "{}"`), whose `id` is undefined and hence falsy. -/
def getWork (store : Store) (idParam : Option String) : GetOneResult × List StoreKey :=
  match sanitize idParam with
  | none => (GetOneResult.notFound, [])
  | some i =>
    if i.isEmpty || i == "undefined" then (GetOneResult.notFound, [])
    else
      match alookup i store.byId with
      | none => (GetOneResult.notFound, [StoreKey.byId i])
      | some w =>
        if !truthyStr w.id || w.isSoftDeleted then (GetOneResult.notFound, [StoreKey.byId i])
        else (GetOneResult.found w.id w, [StoreKey.byId i])

/-- Retrieval predicate for `GET /works` (works.ts, `workRetrievalPredicate`). -/
def workRetrievalPredicate (isStaff isSeekingUnapproved : Bool) (work : Work) : Bool :=
  if work.isApproved || isStaff then
    if !isStaff || !isSeekingUnapproved || !work.isApproved then
      !work.isSoftDeleted
    else false
  else false

/-- Staff test shared by the handlers:
`identifier ? EDITORS.includes(identifier) : false`. -/
def isStaffOf (editors : List String) (identifier : Option String) : Bool :=
  match identifier with
  | some i => editors.contains i
  | none => false

/-- Source selection of `GET /works`: the by-artist map when an artist
filter is present, else the by-week map, else the unfiltered list; a missing
map entry parses as empty (`|| "[]"`). -/
def getWorksSource (store : Store) (year : String) (week artistId : Option String) :
    List Work :=
  if truthyOpt artistId then
    ((alookup (artistId.getD "") store.byArtist).getD []).map Prod.snd
  else if truthyOpt week then
    ((alookup (year, week.getD "") store.byWeek).getD []).map Prod.snd
  else store.worksList

/-- Parsing of the `isUnapproved` flag of `GET /works`:
`["1","true"].includes(sanitize(p)?.toLowerCase() || "???")`. -/
def seekUnapproved (isUnapprovedParam : Option String) : Bool :=
  let lowered : String :=
    match sanitize isUnapprovedParam with
    | some s => if s.toLower.isEmpty then "???" else s.toLower
    | none => "???"
  ["1", "true"].contains lowered

/-- Handler for `GET /works` (works.ts, `getWorks`).  The most selective
provided filter wins (artist over week over the unfiltered list); survivors
of `workRetrievalPredicate` are keyed by work id into the response record. -/
def getWorks (editors : List String) (activeYear : Nat) (store : Store)
    (yearParam weekParam artistIdParam isUnapprovedParam : Option String)
    (identifier : Option String) : List (String × Work) :=
  let isStaff : Bool := isStaffOf editors identifier
  let year : String :=
    match sanitize yearParam with
    | some s => if s.isEmpty then Nat.repr activeYear else s
    | none => Nat.repr activeYear
  let source : List Work :=
    getWorksSource store year (sanitize weekParam) (sanitize artistIdParam)
  let filtered :=
    source.filter (workRetrievalPredicate isStaff (seekUnapproved isUnapprovedParam))
  filtered.foldl (fun acc w => aupsert w.id w acc) []

/-- Reasons a request is rejected with HTTP 400, distinguished by the
`ValidationError` each rejection site constructs. -/
inductive BadRequestReason where
  | validation
  | ownership
  | collision
deriving DecidableEq, Repr

/-- Result of `PUT /works` (works.ts, `putWork`). -/
inductive PutResult where
  | forbidden
  | badRequest (reason : BadRequestReason)
  | ok (w : Work)
deriving DecidableEq, Repr

/-- External collaborators of `putWork`, passed through narrow contracts:
the short-ID allocator (utils/io.ts `determineShortId`, a deterministic
function of artist id and items per the spec), URL classification (hostname
contains the CDN host; pathname contains ".mp3"), the thumbnail pipeline,
and the Discord announcement sync returning the announcement id or null. -/
structure ExtServices where
  determineShortId : String → List UrlItem → String
  isCdnHost : String → Bool
  isMp3Path : String → Bool
  uploadThumbs : String → String × String
  scrape : String → Option String
  uploadScraped : String → String → String × String
  discordSync : Work → Option String

/-- Privilege reset of `putWork` (works.ts lines clearing the three
moderation fields on the incoming payload). -/
def privilegeReset (w : Work) : Work :=
  {w with isApproved := false, discordId := none, isSoftDeleted := false}

/-- Existing-record lookup of `putWork`: the by-ID entry for the presented
id, with the reserved "noop" sentinel treated as absent. -/
def resolveBackend (store : Store) (id : String) : Option Work :=
  match alookup id store.byId with
  | some w => if w.id == "noop" then none else some w
  | none => none

/-- Carry-over step of `putWork`'s edit branch: retain the persisted
`artistId` when the submitted `artistId` is an editor id, and always carry
over `discordId` and `submittedTimestamp` from the persisted record. -/
def carryOver (editors : List String) (bw : Work) (w : Work) : Work :=
  {w with
    artistId := if editors.contains w.artistId then bw.artistId else w.artistId,
    discordId := bw.discordId,
    submittedTimestamp := bw.submittedTimestamp}

/-- Per-item thumbnail derivation of `putWork` (CDN asset, external link, or
audio), with the external pipeline calls supplied by `svc`. -/
def thumbItem (svc : ExtServices) (item : UrlItem) : UrlItem :=
  if svc.isCdnHost item.url && !svc.isMp3Path item.url then
    let p := svc.uploadThumbs item.url
    {item with smallThumbnail := some p.1, hiDpiThumbnail := some p.2}
  else if !svc.isMp3Path item.url then
    match svc.scrape item.url with
    | some t =>
      let p := svc.uploadScraped t item.url
      {item with meta := some t, smallThumbnail := some p.1, hiDpiThumbnail := some p.2}
    | none => item
  else
    {item with
      smallThumbnail := some "/placeholders/audio_submission.png",
      hiDpiThumbnail := some "/placeholders/audio_submission.png"}

/-- Thumbnail stage of `putWork`: regenerate per-item thumbnails when
creating or when the serialized item list changed, then pick the post-level
thumbnail pair when none was supplied (first item's pair, preferring the
first non-placeholder one when there are several items).  The JS condition
ends in `&& noPlaceholders`, an array, which is always truthy. -/
def thumbStage (svc : ExtServices) (backendWork : Option Work) (w : Work) : Work :=
  let itemsChanged : Bool :=
    match backendWork with
    | none => true
    | some bw => decide (w.items ≠ bw.items)
  let w1 := if itemsChanged then {w with items := w.items.map (thumbItem svc)} else w
  if !truthyOpt w1.thumbnailUrl then
    let smallThumbnails := w1.items.map (fun it => it.smallThumbnail)
    let thumbnails := w1.items.map (fun it => it.hiDpiThumbnail)
    if thumbnails.length > 0 then
      let base := {w1 with
        thumbnailUrl := (thumbnails.head?).getD none,
        smallThumbnailUrl := (smallThumbnails.head?).getD none}
      let noPlaceholders := thumbnails.filter
        (fun u => truthyOpt u && !containsSub (u.getD "") "placeholder")
      if thumbnails.length > 1 && noPlaceholders.length > 0 then
        {base with
          thumbnailUrl := (noPlaceholders.head?).getD none,
          smallThumbnailUrl := (noPlaceholders.head?).getD none}
      else base
    else w1
  else w1

/-- Discord stage of `putWork`: attempt the announcement create/edit and, on
a non-null result, record the returned id. -/
def discordApply (svc : ExtServices) (w : Work) : Work :=
  match svc.discordSync w with
  | some d => {w with discordId := some d}
  | none => w

/-- Final work value `putWork` persists and returns, given the resolved
backend record and the payload after reset, id/carry-over fixups. -/
def finishedWork (svc : ExtServices) (backendWork : Option Work) (w : Work) : Work :=
  discordApply svc (thumbStage svc backendWork w)

/-- Tail of `putWork` after the editing-versus-creating branch: thumbnails,
announcement sync, then persistence through the Index Maintainer with all
index updates enabled and `isNewPost` set when no announcement id was
present before the sync. -/
def putWorkFinish (svc : ExtServices) (backendWork : Option Work) (w : Work)
    (store : Store) : PutResult × Store × List StoreKey :=
  let w4 := thumbStage svc backendWork w
  let hadDiscordIdAlready := truthyOpt w4.discordId
  let w5 := discordApply svc w4
  let (store2, log) := placeWork store w5 (!hadDiscordIdAlready)
  (PutResult.ok w5, store2, log)

/-- Body of `putWork` after authentication, schema validation and the
privilege reset: ownership check, existing-record lookup, the
editing-versus-creating branch, and the persistence tail. -/
def putWorkMain (svc : ExtServices) (editors : List String) (cid : String)
    (w : Work) (store : Store) : PutResult × Store × List StoreKey :=
  let isStaff := editors.contains cid
  if !isStaff && w.artistId != cid then
    (PutResult.badRequest BadRequestReason.ownership, store, [])
  else
    match resolveBackend store w.id with
    | some bw =>
      if bw.id != w.id then (PutResult.forbidden, store, [])
      else putWorkFinish svc (some bw) (carryOver editors bw w) store
    | none =>
      let newId := svc.determineShortId w.artistId w.items
      if (alookup newId store.byId).isSome then
        (PutResult.badRequest BadRequestReason.collision, store, [])
      else putWorkFinish svc none {w with id := newId} store

/-- Handler for `PUT /works` (works.ts, `putWork`).  `validationFails` is
the outcome of the external Joi `WORK_SCHEMA.validate(input)` call. -/
def putWork (svc : ExtServices) (editors : List String) (validationFails : Bool)
    (identifier : Option String) (input : Work) (store : Store) :
    PutResult × Store × List StoreKey :=
  match identifier with
  | none => (PutResult.forbidden, store, [])
  | some cid =>
    if validationFails then (PutResult.badRequest BadRequestReason.validation, store, [])
    else putWorkMain svc editors cid (privilegeReset input) store

/-- The single privileged state changes (works.ts, `PrivilegedStateChange`). -/
inductive PrivilegedStateChange where
  | APPROVE
  | UN_APPROVE
  | DELETE
deriving DecidableEq, Repr

/-- Result of a moderation batch call: 403 or the empty `{}` body. -/
inductive BatchResult where
  | forbidden
  | okEmpty
deriving DecidableEq, Repr

/-- The JS empty object produced by `JSON.parse((await get(...)) || "{}")`
for a missing by-ID entry, viewed as a Work: every field is undefined and
coerces to its falsy default.  (When JS later uses its undefined `id` as an
object key it coerces to the string "undefined"; the model keeps "".) -/
def emptyWork : Work := {}

/-- Single-field mutation of a moderation batch item. -/
def applyStateChange (state : PrivilegedStateChange) (w : Work) : Work :=
  match state with
  | PrivilegedStateChange.APPROVE => {w with isApproved := true}
  | PrivilegedStateChange.DELETE => {w with isSoftDeleted := true}
  | PrivilegedStateChange.UN_APPROVE => {w with isApproved := false}

/-- Stable insertion of a work into a list sorted descending by the parsed
timestamp value, placing it after existing entries of equal rank (models the
stable JS sort under the comparator `new Date(b) - new Date(a)`). -/
def insertDesc (dateValue : String → Int) (w : Work) : List Work → List Work
  | [] => [w]
  | x :: xs =>
    if dateValue w.submittedTimestamp > dateValue x.submittedTimestamp then w :: x :: xs
    else x :: insertDesc dateValue w xs

/-- Sort a work list descending by parsed `submittedTimestamp`. -/
def sortByTsDesc (dateValue : String → Int) (l : List Work) : List Work :=
  l.foldl (fun acc w => insertDesc dateValue w acc) []

/-- One iteration of the moderation batch loop (works.ts,
`makePrivilegedStateChange`): fetch the by-ID entry (a missing entry parses
as the empty object), apply the mutation, and write it through the Index
Maintainer with the flags `(isNewPost := false, updateIdIndex := false,
updateArtistAndWeekIndices := false, updateListIndex := true)` as passed at
the call site `placeWork(env.REFRESH_KV, work, false, false, false, true)`. -/
def batchStep (state : PrivilegedStateChange)
    (acc : Store × List StoreKey × List Work) (id : String) :
    Store × List StoreKey × List Work :=
  let work0 := (alookup id acc.1.byId).getD emptyWork
  let work := applyStateChange state work0
  let (st2, l2) := placeWork acc.1 work false false false true
  (st2, acc.2.1 ++ l2, acc.2.2 ++ [work])

/-- Handler for the moderation batch endpoints (works.ts,
`makePrivilegedStateChange`): staff gate, the sequential per-ID loop, then
one read of the unfiltered list, a merge of the mutated works by id
(last-write-wins), a descending re-sort by `submittedTimestamp`, and one
final write of the list key.  `dateValue` is the external `Date` parser. -/
def makePrivilegedStateChange (editors : List String) (dateValue : String → Int)
    (identifier : Option String) (ids : List String) (state : PrivilegedStateChange)
    (store : Store) : BatchResult × Store × List StoreKey :=
  if !isStaffOf editors identifier then (BatchResult.forbidden, store, [])
  else
    let (st, log, works) := ids.foldl (batchStep state) (store, [], [])
    let idToAllWorks := st.worksList.foldl (fun m w => aupsert w.id w m) []
    let merged := works.foldl (fun m w => aupsert w.id w m) idToAllWorks
    let sortedList := sortByTsDesc dateValue (merged.map Prod.snd)
    (BatchResult.okEmpty, {st with worksList := sortedList}, log ++ [StoreKey.listKey])

/-- Projection extracting the persisted work's `discordId` from a put
response, when the put succeeded. -/
def putResultDiscordId : PutResult → Option (Option String)
  | PutResult.ok w => some w.discordId
  | _ => none

/-- Projection extracting the persisted work's `artistId` from a put
response, when the put succeeded. -/
def putResultArtistId : PutResult → Option String
  | PutResult.ok w => some w.artistId
  | _ => none

/-- Concrete external services for test runs: allocator always yields
"wxyz", no CDN or audio URLs, no scraped thumbnails, Discord sync fails. -/
def svcBase : ExtServices where
  determineShortId := fun _ _ => "wxyz"
  isCdnHost := fun _ => false
  isMp3Path := fun _ => false
  uploadThumbs := fun _ => ("sT", "hT")
  scrape := fun _ => none
  uploadScraped := fun _ _ => ("sS", "hS")
  discordSync := fun _ => none

/-- Concrete external services whose Discord sync succeeds with id
"newdisc". -/
def svcDiscord : ExtServices := {svcBase with discordSync := fun _ => some "newdisc"}

/-- Concrete content item used by the test runs. -/
def itemA : UrlItem := {url := "https://example.com/a.png"}

/-- Empty store fixture. -/
def cStoreEmpty : Store := {}

/-- Schema-valid payload of a fresh submission by the non-staff artist
"bob" that tries to smuggle `isApproved = true` and a `discordId` in: the
4-character id "noop" satisfies `WORK_SCHEMA` (string, 4-12 chars) and no
record exists at it; all fields are schema-known (`isSoftDeleted` is not a
schema key, so a validated payload cannot carry it — here the falsy
default). -/
def cInputC1 : Work :=
  {id := "noop", year := 2022, weekNumbers := [1], artistId := "bob", title := "t",
   description := "ddd", items := [itemA], isApproved := true,
   discordId := some "evil", submittedTimestamp := "2022-01-01T00:00:00Z"}

/-- Persisted record of the non-editor artist "alice" under id "abcd". -/
def bwAlice : Work :=
  {id := "abcd", year := 2022, weekNumbers := [1], artistId := "alice", title := "t",
   description := "ddd", items := [itemA], isApproved := true,
   submittedTimestamp := "2022-01-01T00:00:00Z"}

/-- Store holding alice's record in the by-ID index. -/
def cStoreC2 : Store := {byId := [("abcd", bwAlice)]}

/-- Staff overwrite payload presenting alice's record id but the non-editor
artist id "bob". -/
def cInputC2 : Work := {bwAlice with artistId := "bob", title := "hijacked"}

/-- Schema-valid payload owned by "alice", used to exercise the ownership
check. -/
def cInputC3 : Work :=
  {id := "cccc", year := 2022, weekNumbers := [1], artistId := "alice", title := "t",
   description := "ddd", items := [itemA], submittedTimestamp := "2022-01-01T00:00:00Z"}

/-- Record already sitting at the id "wxyz" that the allocator will pick. -/
def cColliderWork : Work :=
  {id := "wxyz", year := 2022, weekNumbers := [1], artistId := "zoe", title := "z",
   description := "zzz", items := [itemA], submittedTimestamp := "2022-01-02T00:00:00Z"}

/-- Store that makes the freshly allocated id collide. -/
def cStoreC4 : Store := {byId := [("wxyz", cColliderWork)]}

/-- Schema-valid payload of a fresh submission by "bob" (no record exists
at its id "dddd") whose allocated id collides. -/
def cInputC4 : Work :=
  {id := "dddd", year := 2022, weekNumbers := [1], artistId := "bob", title := "t",
   description := "ddd", items := [itemA], submittedTimestamp := "2022-01-03T00:00:00Z"}

/-- Unapproved stored work targeted by the moderation batch runs. -/
def wA : Work :=
  {id := "aaaa", year := 2022, weekNumbers := [1], artistId := "alice", title := "t",
   description := "ddd", items := [itemA], isApproved := false,
   submittedTimestamp := "2022-01-01T00:00:00Z"}

/-- Store holding `wA` in both the by-ID index and the unfiltered list. -/
def cStoreB : Store := {byId := [("aaaa", wA)], worksList := [wA]}

/-- Approved, live work fixture for the retrieval claims. -/
def w8live : Work :=
  {id := "aaaa", year := 2022, weekNumbers := [1], artistId := "alice", title := "t",
   description := "ddd", items := [itemA], isApproved := true,
   submittedTimestamp := "2022-01-01T00:00:00Z"}

/-- Soft-deleted work fixture for the retrieval claims. -/
def w8del : Work := {w8live with id := "bbbb", isSoftDeleted := true}

/-- Store holding one live and one soft-deleted work by id. -/
def cStore8 : Store := {byId := [("aaaa", w8live), ("bbbb", w8del)]}

/-- Store whose unfiltered list holds one approved live work. -/
def cStore7 : Store := {worksList := [w8live]}

/-- Work that the run of `putWork` on `cInputC1` persists and returns. -/
def cW1 : Work :=
  {cInputC1 with
    id := "wxyz", isApproved := false, isSoftDeleted := false, discordId := some "newdisc"}

/-- Work that the staff overwrite run of `putWork` on `cInputC2` persists
and returns. -/
def cW2 : Work := {cInputC2 with isApproved := false}

/-- An association-list lookup hit is a member of the list. -/
theorem alookup_mem {α β : Type} [DecidableEq α] {k : α} {v : β} {l : List (α × β)}
    (h : alookup k l = some v) : (k, v) ∈ l := by
  induction l with
  | nil => simp [alookup] at h
  | cons q rest ih =>
    obtain ⟨k₀, v₀⟩ := q
    simp only [alookup] at h
    split at h
    · rename_i hk
      injection h with h
      subst hk
      subst h
      exact List.mem_cons_self _ _
    · exact List.mem_cons_of_mem _ (ih h)

/-- Members of an upserted association list are the new pair or old members. -/
theorem aupsert_mem {α β : Type} [DecidableEq α] {k : α} {v : β} {p : α × β}
    {l : List (α × β)} (h : p ∈ aupsert k v l) : p = (k, v) ∨ p ∈ l := by
  induction l with
  | nil =>
    simp only [aupsert, List.mem_singleton] at h
    exact Or.inl h
  | cons q rest ih =>
    obtain ⟨k₀, v₀⟩ := q
    by_cases hk : k₀ = k
    · rw [aupsert, if_pos hk] at h
      rcases List.mem_cons.mp h with h1 | h2
      · exact Or.inl h1
      · exact Or.inr (List.mem_cons_of_mem _ h2)
    · rw [aupsert, if_neg hk] at h
      rcases List.mem_cons.mp h with h1 | h2
      · exact Or.inr (h1 ▸ List.mem_cons_self _ _)
      · rcases ih h2 with h3 | h4
        · exact Or.inl h3
        · exact Or.inr (List.mem_cons_of_mem _ h4)

/-- Members of the record built by folding upserts come from the
accumulator or from the source list, keyed by their own id. -/
theorem mem_foldl_aupsert {l : List Work} :
    ∀ {acc : List (String × Work)} {p : String × Work},
      p ∈ l.foldl (fun m w => aupsert w.id w m) acc →
        p ∈ acc ∨ ∃ w, w ∈ l ∧ p = (w.id, w) := by
  induction l with
  | nil =>
    intro acc p hp
    exact Or.inl hp
  | cons w ws ih =>
    intro acc p hp
    rw [List.foldl_cons] at hp
    rcases ih hp with h | ⟨w₁, hw₁, rfl⟩
    · rcases aupsert_mem h with h1 | h2
      · exact Or.inr ⟨w, List.mem_cons_self _ _, h1⟩
      · exact Or.inl h2
    · exact Or.inr ⟨w₁, List.mem_cons_of_mem _ hw₁, rfl⟩

/-- Privilege reset leaves the identity fields of the payload unchanged. -/
@[simp]
theorem privilegeReset_id (w : Work) : (privilegeReset w).id = w.id := rfl

/-- Privilege reset leaves the artist id of the payload unchanged. -/
@[simp]
theorem privilegeReset_artistId (w : Work) : (privilegeReset w).artistId = w.artistId := rfl

/-- Privilege reset leaves the item list of the payload unchanged. -/
@[simp]
theorem privilegeReset_items (w : Work) : (privilegeReset w).items = w.items := rfl

/-- Privilege reset ignores the submitted values of the three moderation
fields: overriding them on the payload does not change its result. -/
theorem privilegeReset_override (input : Work) (a s : Bool) (d : Option String) :
    privilegeReset {input with isApproved := a, discordId := d, isSoftDeleted := s}
      = privilegeReset input := rfl

/-- With a present caller and passing validation, `putWork` runs its main
body on the reset payload. -/
theorem putWork_some (svc : ExtServices) (editors : List String) (cid : String)
    (input : Work) (store : Store) :
    putWork svc editors false (some cid) input store
      = putWorkMain svc editors cid (privilegeReset input) store := rfl

/-- The thumbnail stage only rewrites items and the post-level thumbnail
pair: the moderation, identity and provenance fields pass through. -/
theorem thumbStage_fields (svc : ExtServices) (b : Option Work) (w : Work) :
    (thumbStage svc b w).isApproved = w.isApproved
      ∧ (thumbStage svc b w).isSoftDeleted = w.isSoftDeleted
      ∧ (thumbStage svc b w).artistId = w.artistId
      ∧ (thumbStage svc b w).id = w.id
      ∧ (thumbStage svc b w).discordId = w.discordId
      ∧ (thumbStage svc b w).submittedTimestamp = w.submittedTimestamp := by
  simp only [thumbStage]
  repeat' split
  all_goals exact ⟨rfl, rfl, rfl, rfl, rfl, rfl⟩

/-- The Discord stage only rewrites `discordId`. -/
theorem discordApply_fields (svc : ExtServices) (w : Work) :
    (discordApply svc w).isApproved = w.isApproved
      ∧ (discordApply svc w).isSoftDeleted = w.isSoftDeleted
      ∧ (discordApply svc w).artistId = w.artistId
      ∧ (discordApply svc w).id = w.id
      ∧ (discordApply svc w).submittedTimestamp = w.submittedTimestamp := by
  unfold discordApply
  cases h : svc.discordSync w <;> simp

/-- The finished work keeps the moderation flags of its input. -/
theorem finishedWork_moderation (svc : ExtServices) (b : Option Work) (w : Work) :
    (finishedWork svc b w).isApproved = w.isApproved
      ∧ (finishedWork svc b w).isSoftDeleted = w.isSoftDeleted := by
  unfold finishedWork
  have h1 := thumbStage_fields svc b w
  have h2 := discordApply_fields svc (thumbStage svc b w)
  exact ⟨h2.1.trans h1.1, h2.2.1.trans h1.2.1⟩

/-- The finished work keeps the artist id of its input. -/
theorem finishedWork_artistId (svc : ExtServices) (b : Option Work) (w : Work) :
    (finishedWork svc b w).artistId = w.artistId := by
  unfold finishedWork
  have h1 := thumbStage_fields svc b w
  have h2 := discordApply_fields svc (thumbStage svc b w)
  exact h2.2.2.1.trans h1.2.2.1

/-- Result component of the persistence tail of `putWork`. -/
theorem putWorkFinish_fst (svc : ExtServices) (b : Option Work) (w : Work)
    (store : Store) :
    (putWorkFinish svc b w store).1 = PutResult.ok (finishedWork svc b w) := rfl

/-- Inversion for a successful `putWorkMain`: the returned work is the
finished edit of the carry-over payload, or the finished creation under the
freshly allocated id. -/
theorem putWorkMain_ok (svc : ExtServices) (editors : List String) (cid : String)
    (w0 : Work) (store : Store) (w : Work)
    (h : (putWorkMain svc editors cid w0 store).1 = PutResult.ok w) :
    (∃ bw, resolveBackend store w0.id = some bw
        ∧ w = finishedWork svc (some bw) (carryOver editors bw w0))
      ∨ (resolveBackend store w0.id = none
          ∧ w = finishedWork svc none
              {w0 with id := svc.determineShortId w0.artistId w0.items}) := by
  simp only [putWorkMain] at h
  by_cases hown : (!(editors.contains cid) && (w0.artistId != cid)) = true
  · rw [if_pos hown] at h
    simp at h
  · rw [if_neg hown] at h
    rcases hres : resolveBackend store w0.id with _ | bw
    · rw [hres] at h
      dsimp only at h
      by_cases hcol :
          (alookup (svc.determineShortId w0.artistId w0.items) store.byId).isSome = true
      · rw [if_pos hcol] at h
        simp at h
      · rw [if_neg hcol] at h
        rw [putWorkFinish_fst] at h
        injection h with h
        exact Or.inr ⟨hres ▸ rfl, h.symm⟩
    · rw [hres] at h
      dsimp only at h
      by_cases hid : (bw.id != w0.id) = true
      · rw [if_pos hid] at h
        simp at h
      · rw [if_neg hid] at h
        rw [putWorkFinish_fst] at h
        injection h with h
        exact Or.inl ⟨bw, hres ▸ rfl, h.symm⟩

/-- A work passing the retrieval predicate for a non-staff caller is
approved and not soft-deleted. -/
theorem workRetrievalPredicate_nonstaff {q : Bool} {w : Work}
    (h : workRetrievalPredicate false q w = true) :
    w.isApproved = true ∧ w.isSoftDeleted = false := by
  unfold workRetrievalPredicate at h
  cases ha : w.isApproved <;> cases hd : w.isSoftDeleted <;> rw [ha, hd] at h <;> simp_all

/-- C1 (amended): on a non-staff `putWork`, every successfully persisted
work has `isApproved = false` and `isSoftDeleted = false`, and the whole run
is unchanged if the payload's `isApproved`, `discordId` and `isSoftDeleted`
are overridden — the submitted values of the three fields are irrelevant.
The persisted `discordId` itself need not be undefined: it can be carried
over from the persisted record or set from the announcement service (see
the counterexample). -/
theorem putWork_nonstaff_privilege_reset (svc : ExtServices) (editors : List String)
    (cid : String) (input : Work) (store : Store) (a s : Bool) (d : Option String)
    (w : Work)
    (hns : editors.contains cid = false)
    (hw : (putWork svc editors false (some cid) input store).1 = PutResult.ok w) :
    w.isApproved = false ∧ w.isSoftDeleted = false ∧
      putWork svc editors false (some cid)
          {input with isApproved := a, discordId := d, isSoftDeleted := s} store
        = putWork svc editors false (some cid) input store := by
  rw [putWork_some] at hw
  have hinv := putWorkMain_ok svc editors cid (privilegeReset input) store w hw
  refine ⟨?_, ?_, ?_⟩
  · rcases hinv with ⟨bw, _, hwe⟩ | ⟨_, hwe⟩
    · rw [hwe, (finishedWork_moderation svc (some bw) _).1]
      rfl
    · rw [hwe, (finishedWork_moderation svc none _).1]
      rfl
  · rcases hinv with ⟨bw, _, hwe⟩ | ⟨_, hwe⟩
    · rw [hwe, (finishedWork_moderation svc (some bw) _).2]
      rfl
    · rw [hwe, (finishedWork_moderation svc none _).2]
      rfl
  · rw [putWork_some, putWork_some, privilegeReset_override]

/-- C1 witness: a concrete non-staff run, with garbage moderation fields in
the payload, persists `isApproved = false`, `isSoftDeleted = false`, and is
unaffected by overriding those fields (here `isApproved` and `discordId`
flipped to other schema-valid values). -/
theorem putWork_nonstaff_privilege_reset_witness :
    cW1.isApproved = false ∧ cW1.isSoftDeleted = false ∧
      putWork svcDiscord ["staff1"] false (some "bob")
          {cInputC1 with isApproved := false, discordId := some "junk", isSoftDeleted := false}
          cStoreEmpty
        = putWork svcDiscord ["staff1"] false (some "bob") cInputC1 cStoreEmpty :=
  putWork_nonstaff_privilege_reset svcDiscord ["staff1"] "bob" cInputC1 cStoreEmpty
    false false (some "junk") cW1 (by decide) (by decide)

/-- C1 counterexample: a successful non-staff `putWork` whose persisted
`discordId` is NOT undefined — the announcement service's id is recorded —
refuting the claim that the persisted work always has
`discordId = undefined`. -/
theorem putWork_nonstaff_discord_cex :
    putResultDiscordId (putWork svcDiscord ["staff1"] false (some "bob")
        cInputC1 cStoreEmpty).1 = some (some "newdisc")
      ∧ (some "newdisc" : Option String) ≠ none := by
  refine ⟨by decide, by decide⟩

/-- C2 (amended): on a staff edit of an existing record, the persisted
`artistId` is retained from the persisted record only when the submitted
`artistId` is itself an editor id; otherwise the submitted `artistId` is
persisted (so staff overwrites CAN change `artistId`, see the
counterexample). -/
theorem putWork_staff_edit_artistId (svc : ExtServices) (editors : List String)
    (cid : String) (input : Work) (store : Store) (bw w : Work)
    (hstaff : editors.contains cid = true)
    (hbw : resolveBackend store input.id = some bw)
    (hmatch : bw.id = input.id)
    (hw : (putWork svc editors false (some cid) input store).1 = PutResult.ok w) :
    w.artistId = if editors.contains input.artistId then bw.artistId else input.artistId := by
  rw [putWork_some] at hw
  rcases putWorkMain_ok svc editors cid (privilegeReset input) store w hw with
    ⟨bw₂, hbw₂, hwe⟩ | ⟨hnone, _⟩
  · rw [privilegeReset_id] at hbw₂
    have hbb : bw₂ = bw := by
      have := hbw₂.symm.trans hbw
      injection this
    subst hbb
    rw [hwe, finishedWork_artistId]
    rfl
  · rw [privilegeReset_id] at hnone
    rw [hnone] at hbw
    cases hbw

/-- C2 witness: a concrete staff edit; the persisted `artistId` matches the
amended rule (here the submitted non-editor id "bob" wins). -/
theorem putWork_staff_edit_artistId_witness :
    cW2.artistId
      = if ["staff1"].contains cInputC2.artistId then bwAlice.artistId
        else cInputC2.artistId :=
  putWork_staff_edit_artistId svcBase ["staff1"] "staff1" cInputC2 cStoreC2 bwAlice cW2
    (by decide) (by decide) (by decide) (by decide)

/-- C2 counterexample: a successful staff overwrite of alice's record that
persists `artistId = "bob"`, different from the previously persisted
`artistId = "alice"` — refuting the claim that staff overwrites never
change `artistId`. -/
theorem putWork_staff_reassign_cex :
    putResultArtistId (putWork svcBase ["staff1"] false (some "staff1")
        cInputC2 cStoreC2).1 = some "bob"
      ∧ alookup "abcd" cStoreC2.byId = some bwAlice
      ∧ bwAlice.artistId = "alice"
      ∧ ("bob" : String) ≠ "alice" := by
  refine ⟨by decide, by decide, by decide, by decide⟩

/-- C3 (confirmed): with an authenticated caller and passing schema
validation, `putWork` fails with the ownership `BadRequest` exactly when the
caller is neither staff nor equal to `input.artistId`; when the caller is
staff or matches `input.artistId`, the ownership check never rejects. -/
theorem putWork_ownership_check (svc : ExtServices) (editors : List String)
    (cid : String) (input : Work) (store : Store) :
    ((editors.contains cid = false ∧ input.artistId ≠ cid) →
        (putWork svc editors false (some cid) input store).1
          = PutResult.badRequest BadRequestReason.ownership)
      ∧ ((editors.contains cid = true ∨ input.artistId = cid) →
        (putWork svc editors false (some cid) input store).1
          ≠ PutResult.badRequest BadRequestReason.ownership) := by
  constructor
  · rintro ⟨h1, h2⟩
    rw [putWork_some]
    simp only [putWorkMain]
    have hc : (!(editors.contains cid) && ((privilegeReset input).artistId != cid)) = true := by
      simp only [privilegeReset_artistId, h1, Bool.not_false, Bool.true_and, bne_iff_ne, ne_eq]
      exact h2
    rw [if_pos hc]
  · intro hor hcontra
    rw [putWork_some] at hcontra
    simp only [putWorkMain] at hcontra
    have hc : (!(editors.contains cid) && ((privilegeReset input).artistId != cid)) = false := by
      rcases hor with h | h
      · simp only [h, Bool.not_true, Bool.false_and]
      · simp only [privilegeReset_artistId, h, bne_self_eq_false, Bool.and_false]
    have hneg : ¬((!(editors.contains cid) && ((privilegeReset input).artistId != cid)) = true) := by
      intro hh
      rw [hc] at hh
      exact Bool.false_ne_true hh
    rw [if_neg hneg] at hcontra
    rcases hres : resolveBackend store (privilegeReset input).id with _ | bw
    · rw [hres] at hcontra
      dsimp only at hcontra
      by_cases hcol :
          (alookup (svc.determineShortId (privilegeReset input).artistId
            (privilegeReset input).items) store.byId).isSome = true
      · rw [if_pos hcol] at hcontra
        simp at hcontra
      · rw [if_neg hcol] at hcontra
        rw [putWorkFinish_fst] at hcontra
        simp at hcontra
    · rw [hres] at hcontra
      dsimp only at hcontra
      by_cases hid2 : (bw.id != (privilegeReset input).id) = true
      · rw [if_pos hid2] at hcontra
        simp at hcontra
      · rw [if_neg hid2] at hcontra
        rw [putWorkFinish_fst] at hcontra
        simp at hcontra

/-- C3 witness: a concrete non-owner non-staff run is rejected with the
ownership `BadRequest`, and a concrete staff run is not. -/
theorem putWork_ownership_check_witness :
    (putWork svcBase [] false (some "bob") cInputC3 cStoreEmpty).1
        = PutResult.badRequest BadRequestReason.ownership
      ∧ (putWork svcBase ["staff1"] false (some "staff1") cInputC3 cStoreEmpty).1
        ≠ PutResult.badRequest BadRequestReason.ownership :=
  ⟨(putWork_ownership_check svcBase [] "bob" cInputC3 cStoreEmpty).1
      ⟨by decide, by decide⟩,
   (putWork_ownership_check svcBase ["staff1"] "staff1" cInputC3 cStoreEmpty).2
      (Or.inl (by decide))⟩

/-- C4 (confirmed): when no backend record exists for the presented id and
the freshly allocated id already has a by-ID entry, `putWork` fails with the
"already exists" `BadRequest`, returns the store unchanged, and performs no
store write at all (empty write log). -/
theorem putWork_collision_rejected (svc : ExtServices) (editors : List String)
    (cid : String) (input : Work) (store : Store)
    (hown : editors.contains cid = true ∨ input.artistId = cid)
    (hnb : resolveBackend store input.id = none)
    (hcol : (alookup (svc.determineShortId input.artistId input.items) store.byId).isSome
        = true) :
    putWork svc editors false (some cid) input store
      = (PutResult.badRequest BadRequestReason.collision, store, []) := by
  rw [putWork_some]
  simp only [putWorkMain]
  have hneg : ¬((!(editors.contains cid) && ((privilegeReset input).artistId != cid)) = true) := by
    rcases hown with h | h
    · simp only [h, Bool.not_true, Bool.false_and]
      exact fun hh => Bool.false_ne_true hh
    · simp only [privilegeReset_artistId, h, bne_self_eq_false, Bool.and_false]
      exact fun hh => Bool.false_ne_true hh
  rw [if_neg hneg]
  have hres : resolveBackend store (privilegeReset input).id = none := hnb
  rw [hres]
  dsimp only
  simp only [privilegeReset_artistId, privilegeReset_items]
  rw [if_pos hcol]

/-- C4 witness: a concrete fresh submission whose allocated id "wxyz"
collides with an existing entry is rejected with the collision
`BadRequest`, the store is unchanged and nothing is written. -/
theorem putWork_collision_rejected_witness :
    putWork svcBase ["staff1"] false (some "bob") cInputC4 cStoreC4
      = (PutResult.badRequest BadRequestReason.collision, cStoreC4, []) :=
  putWork_collision_rejected svcBase ["staff1"] "bob" cInputC4 cStoreC4
    (Or.inr (by decide)) (by decide) (by decide)

/-- C5 (code bug): on a staff approve batch over one id, the unfiltered
list key is written twice — once inside the loop (the call-site flags
`(false, false, false, true)` enable the list update under the Index
Maintainer's contract) and once by the final merge — not exactly once as
claimed and as the code's own comment ("not the main list") states. -/
theorem batch_list_write_not_once :
    (makePrivilegedStateChange ["staff1"] (fun _ => 0) (some "staff1") ["aaaa"]
        PrivilegedStateChange.APPROVE cStoreB).2.2
      = [StoreKey.listKey, StoreKey.listKey]
    ∧ (makePrivilegedStateChange ["staff1"] (fun _ => 0) (some "staff1") ["aaaa"]
        PrivilegedStateChange.APPROVE cStoreB).2.2
      ≠ [StoreKey.listKey] := by
  refine ⟨by decide, by decide⟩

/-- C6 (code bug): the per-item moderation write suppresses the by-ID,
by-artist and by-week sub-indices (the by-ID entry still holds the
unapproved `wA` after the batch and no by-artist/by-week entry is written)
while the unfiltered list IS updated per item — the inverse of the claimed
flag usage, contradicting the code's own comment. -/
theorem batch_subindex_writes_inverted :
    alookup "aaaa" (makePrivilegedStateChange ["staff1"] (fun _ => 0) (some "staff1")
        ["aaaa"] PrivilegedStateChange.APPROVE cStoreB).2.1.byId = some wA
    ∧ wA.isApproved = false
    ∧ (makePrivilegedStateChange ["staff1"] (fun _ => 0) (some "staff1")
        ["aaaa"] PrivilegedStateChange.APPROVE cStoreB).2.1.byArtist = []
    ∧ (makePrivilegedStateChange ["staff1"] (fun _ => 0) (some "staff1")
        ["aaaa"] PrivilegedStateChange.APPROVE cStoreB).2.1.byWeek = []
    ∧ (makePrivilegedStateChange ["staff1"] (fun _ => 0) (some "staff1")
        ["aaaa"] PrivilegedStateChange.APPROVE cStoreB).2.1.worksList
      = [{wA with isApproved := true}] := by
  refine ⟨by decide, by decide, by decide, by decide, by decide⟩

/-- C9 (code bug): a staff approve batch over a missing id "ghost" does not
raise any fault — the `|| "{}"` default turns the missing record into the
empty object, the batch reports plain success, and a mutated empty work is
even persisted into the unfiltered list. -/
theorem batch_missing_id_no_fault :
    makePrivilegedStateChange ["staff1"] (fun _ => 0) (some "staff1") ["ghost"]
        PrivilegedStateChange.APPROVE cStoreEmpty
      = (BatchResult.okEmpty,
         {byId := [], byArtist := [], byWeek := [],
          worksList := [{emptyWork with isApproved := true}]},
         [StoreKey.listKey, StoreKey.listKey]) := by
  decide

/-- C7 (confirmed): for a non-staff caller, every work in a `getWorks`
response — whichever of the three retrieval paths served it — is approved
and not soft-deleted. -/
theorem getWorks_nonstaff_approved (editors : List String) (activeYear : Nat)
    (store : Store) (yp wp ap up identifier : Option String)
    (hns : isStaffOf editors identifier = false) :
    ∀ p ∈ getWorks editors activeYear store yp wp ap up identifier,
      p.2.isApproved = true ∧ p.2.isSoftDeleted = false := by
  intro p hp
  simp only [getWorks, hns] at hp
  rcases mem_foldl_aupsert hp with h | ⟨w, hw, rfl⟩
  · simp at h
  · exact workRetrievalPredicate_nonstaff (List.mem_filter.mp hw).2

/-- C7 witness: a concrete anonymous `getWorks` run over the unfiltered
list serves `w8live`, which the theorem shows approved and live. -/
theorem getWorks_nonstaff_approved_witness :
    ("aaaa", w8live) ∈ getWorks [] 2022 cStore7 none none none none none
      ∧ w8live.isApproved = true ∧ w8live.isSoftDeleted = false :=
  ⟨by decide,
   getWorks_nonstaff_approved [] 2022 cStore7 none none none none none (by decide)
     ("aaaa", w8live) (by decide)⟩

/-- C8 (confirmed): on a valid id parameter and a well-formed by-ID index,
`getWork` answers `notFound` exactly when the entry is absent or
soft-deleted, and otherwise returns the stored work. -/
theorem getWork_absent_or_deleted (store : Store) (idParam : Option String) (i : String)
    (hwf : ∀ p ∈ store.byId, (p.2).id = p.1)
    (hid : sanitize idParam = some i) (hne : i ≠ "") (hnu : i ≠ "undefined") :
    (alookup i store.byId = none →
        getWork store idParam = (GetOneResult.notFound, [StoreKey.byId i]))
      ∧ (∀ w, alookup i store.byId = some w → w.isSoftDeleted = true →
        getWork store idParam = (GetOneResult.notFound, [StoreKey.byId i]))
      ∧ (∀ w, alookup i store.byId = some w → w.isSoftDeleted = false →
        getWork store idParam = (GetOneResult.found i w, [StoreKey.byId i])) := by
  have hie : i.isEmpty = false := by
    cases hi : i.isEmpty
    · rfl
    · exact absurd ((String.isEmpty_iff i).mp hi) hne
  have hiu : (i == "undefined") = false := by
    cases hu : i == "undefined"
    · rfl
    · exact absurd (eq_of_beq hu) hnu
  have hrw : getWork store idParam
      = (match alookup i store.byId with
         | none => (GetOneResult.notFound, [StoreKey.byId i])
         | some w =>
           if !truthyStr w.id || w.isSoftDeleted then
             (GetOneResult.notFound, [StoreKey.byId i])
           else (GetOneResult.found w.id w, [StoreKey.byId i])) := by
    unfold getWork
    rw [hid]
    dsimp only
    rw [hie, hiu]
    rfl
  refine ⟨?_, ?_, ?_⟩
  · intro hnone
    rw [hrw, hnone]
  · intro w hw hdel
    rw [hrw, hw]
    dsimp only
    rw [hdel]
    simp
  · intro w hw hlive
    have hwid : w.id = i := hwf (i, w) (alookup_mem hw)
    have htr : truthyStr w.id = true := by
      unfold truthyStr
      rw [hwid, hie]
      rfl
    rw [hrw, hw]
    dsimp only
    rw [htr, hlive, hwid]
    simp

/-- C8 witness: concrete runs — a missing id and a soft-deleted id answer
`notFound`; a live id returns the stored work. -/
theorem getWork_absent_or_deleted_witness :
    getWork cStore8 (some "zzzz") = (GetOneResult.notFound, [StoreKey.byId "zzzz"])
      ∧ getWork cStore8 (some "bbbb") = (GetOneResult.notFound, [StoreKey.byId "bbbb"])
      ∧ getWork cStore8 (some "aaaa")
        = (GetOneResult.found "aaaa" w8live, [StoreKey.byId "aaaa"]) :=
  ⟨(getWork_absent_or_deleted cStore8 (some "zzzz") "zzzz" (by decide) (by decide)
      (by decide) (by decide)).1 (by decide),
   (getWork_absent_or_deleted cStore8 (some "bbbb") "bbbb" (by decide) (by decide)
      (by decide) (by decide)).2.1 w8del (by decide) (by decide),
   (getWork_absent_or_deleted cStore8 (some "aaaa") "aaaa" (by decide) (by decide)
      (by decide) (by decide)).2.2 w8live (by decide) (by decide)⟩

/-- C10 (confirmed): when the id parameter is absent, sanitizes to the
empty string, or sanitizes to the literal string "undefined", `getWork`
answers `notFound` with an empty read log — no store key is read. -/
theorem getWork_invalid_id_no_read (store : Store) (idParam : Option String)
    (h : sanitize idParam = none ∨ sanitize idParam = some ""
        ∨ sanitize idParam = some "undefined") :
    getWork store idParam = (GetOneResult.notFound, []) := by
  unfold getWork
  rcases h with h | h | h <;> rw [h] <;> rfl

/-- C10 witness: a concrete `getWork` call with the serialized-undefined
sentinel answers `notFound` without touching the store. -/
theorem getWork_invalid_id_no_read_witness :
    getWork cStore8 (some "undefined") = (GetOneResult.notFound, []) :=
  getWork_invalid_id_no_read cStore8 (some "undefined") (Or.inr (Or.inr (by decide)))

end Refresh
